import Mathlib

/-!
Verification of the Pomodoro TimeFlow timer component
(src/src/components/pomodoro-timer.tsx).

The component is a single state machine over the record
(focusDuration, breakDuration, alarmVolume, timeLeft, isActive,
currentPhase, totalFocusedSeconds).  We embed its operations as pure
Lean functions on an explicit state record:

  * tick             - the countdown useEffect (lines 96-120): the
                       one-second interval decrement, followed by the
                       expiry branch that runs as soon as timeLeft is 0
                       while active (alarm + phase transition);
  * handleStartPause - lines 122-128;
  * handleReset      - lines 130-135;
  * handleSkip       - lines 137-151;
  * handleSaveSettings - lines 153-180, with JS parseInt(_, 10)
                       embedded as parseIntJS;
  * formatTime       - lines 182-186.

Operations that call playAlarm return a Bool recording whether the
alarm was invoked; handleSaveSettings returns a SaveResult recording
which toast was emitted.  All numbers are Int (JS numbers used only at
integral values); fallible parsing returns Option Int.
-/

/-- The two timer phases, the strings "focus" and "break" in the source. -/
inductive Phase where
  | focus : Phase
  | breakP : Phase
deriving DecidableEq, Repr

/-- The component state: committed settings plus timer state. -/
structure TimerState where
  focusDuration : Int
  breakDuration : Int
  alarmVolume : Int
  timeLeft : Int
  isActive : Bool
  currentPhase : Phase
  totalFocusedSeconds : Int
deriving DecidableEq, Repr

/-- Initial state (lines 16-18, 21-23, 29-32): focus 30 min, break 15 min,
volume 50, timeLeft = focusDuration * 60, paused, Focus phase, zero total. -/
def initState : TimerState :=
  { focusDuration := 30
    breakDuration := 15
    alarmVolume := 50
    timeLeft := 30 * 60
    isActive := false
    currentPhase := Phase.focus
    totalFocusedSeconds := 0 }

/-- Expiry branch of the countdown useEffect (lines 103-115): if active with
timeLeft 0, play the alarm and transition phases, crediting the full focus
duration when leaving Focus.  Returns the new state and whether the alarm
fired. -/
def expire (s : TimerState) : TimerState × Bool :=
  if s.isActive = true ∧ s.timeLeft = 0 then
    if s.currentPhase = Phase.focus then
      ({ s with totalFocusedSeconds := s.totalFocusedSeconds + s.focusDuration * 60
                currentPhase := Phase.breakP
                timeLeft := s.breakDuration * 60 }, true)
    else
      ({ s with currentPhase := Phase.focus
                timeLeft := s.focusDuration * 60 }, true)
  else (s, false)

/-- One second of wall-clock time while the countdown effect is live
(lines 96-120): the interval fires only when active with timeLeft > 0 and
decrements timeLeft; the effect then re-runs immediately, so a decrement
that reaches 0 triggers the expiry branch within the same tick. -/
def tick (s : TimerState) : TimerState × Bool :=
  if s.isActive = true ∧ 0 < s.timeLeft then
    expire { s with timeLeft := s.timeLeft - 1 }
  else (s, false)

/-- handleStartPause (lines 122-128): toggle isActive; the reseed check reads
the pre-toggle isActive from the closure, so it reseeds exactly when starting
from paused with timeLeft 0. -/
def handleStartPause (s : TimerState) : TimerState :=
  let s1 := { s with isActive := !s.isActive }
  if s.isActive = false ∧ s.timeLeft = 0 then
    { s1 with timeLeft :=
        if s.currentPhase = Phase.focus then s.focusDuration * 60
        else s.breakDuration * 60 }
  else s1

/-- handleReset (lines 130-135): stop, force Focus, reseed from the focus
duration; totalFocusedSeconds untouched. -/
def handleReset (s : TimerState) : TimerState :=
  { s with isActive := false
           currentPhase := Phase.focus
           timeLeft := s.focusDuration * 60 }

/-- handleSkip (lines 137-151): play the alarm; from Focus, credit the
elapsed portion focusDuration*60 - timeLeft and move to Break; from Break,
move to Focus with no credit; always set isActive true.  Returns the new
state and whether the alarm fired (always true). -/
def handleSkip (s : TimerState) : TimerState × Bool :=
  let s1 :=
    if s.currentPhase = Phase.focus then
      { s with totalFocusedSeconds :=
                 s.totalFocusedSeconds + (s.focusDuration * 60 - s.timeLeft)
               currentPhase := Phase.breakP
               timeLeft := s.breakDuration * 60 }
    else
      { s with currentPhase := Phase.focus
               timeLeft := s.focusDuration * 60 }
  ({ s1 with isActive := true }, true)

/-- Value of a list of decimal digit characters. -/
def digitsToNat (cs : List Char) : Nat :=
  cs.foldl (fun a c => a * 10 + (c.toNat - 48)) 0

/-- JS parseInt(str, 10): skip leading whitespace, read an optional sign,
then the longest prefix of decimal digits; NaN (none) if no digit follows. -/
def parseIntJS (str : String) : Option Int :=
  let cs := str.toList.dropWhile Char.isWhitespace
  let signRest : Int × List Char :=
    match cs with
    | '-' :: r => (-1, r)
    | '+' :: r => (1, r)
    | r => (1, r)
  let ds := signRest.2.takeWhile Char.isDigit
  if ds.isEmpty then none
  else some (signRest.1 * (digitsToNat ds : Int))

/-- Which toast handleSaveSettings emits. -/
inductive SaveResult where
  | ok : SaveResult
  | invalidDuration : SaveResult
  | invalidVolume : SaveResult
deriving DecidableEq, Repr

/-- handleSaveSettings (lines 153-180) applied to the three draft strings:
parse all three with parseInt; reject (state unchanged) if focus or break is
NaN or non-positive, then if volume is NaN or outside [0,100]; otherwise
commit, and when not active reseed timeLeft from the new duration of the
currently displayed phase. -/
def handleSaveSettings (s : TimerState)
    (customFocus customBreak customVolume : String) : TimerState × SaveResult :=
  match parseIntJS customFocus, parseIntJS customBreak with
  | some newFocus, some newBreak =>
    if newFocus ≤ 0 ∨ newBreak ≤ 0 then (s, SaveResult.invalidDuration)
    else
      match parseIntJS customVolume with
      | some newVolume =>
        if newVolume < 0 ∨ 100 < newVolume then (s, SaveResult.invalidVolume)
        else
          let s1 := { s with focusDuration := newFocus
                             breakDuration := newBreak
                             alarmVolume := newVolume }
          if s.isActive = false then
            if s.currentPhase = Phase.focus then
              ({ s1 with timeLeft := newFocus * 60 }, SaveResult.ok)
            else
              ({ s1 with timeLeft := newBreak * 60 }, SaveResult.ok)
          else (s1, SaveResult.ok)
      | none => (s, SaveResult.invalidVolume)
  | _, _ => (s, SaveResult.invalidDuration)

/-- formatTime (lines 182-186): zero-padded minutes, a colon, zero-padded
seconds. -/
def formatTime (seconds : Nat) : String :=
  let mins := seconds / 60
  let secs := seconds % 60
  (if mins < 10 then "0" else "") ++ toString mins ++ ":"
    ++ (if secs < 10 then "0" else "") ++ toString secs

/-- The inverse parse named by the spec: split the character list on the
colon and read the two fields as decimal minutes and seconds. -/
def parseClock (str : String) : Option Nat :=
  match str.toList.splitOn ':' with
  | [m, sec] =>
    if m.isEmpty ∨ sec.isEmpty ∨ ¬(m.all Char.isDigit) ∨ ¬(sec.all Char.isDigit)
    then none
    else some (digitsToNat m * 60 + digitsToNat sec)
  | _ => none

/-- States reachable from the initial state by any sequence of the five
commands (tick, toggle, reset, skip, save-settings with arbitrary draft
strings). -/
inductive Reachable : TimerState → Prop where
  | init : Reachable initState
  | stepTick : ∀ {s}, Reachable s → Reachable (tick s).1
  | stepToggle : ∀ {s}, Reachable s → Reachable (handleStartPause s)
  | stepReset : ∀ {s}, Reachable s → Reachable (handleReset s)
  | stepSkip : ∀ {s}, Reachable s → Reachable (handleSkip s).1
  | stepSave : ∀ {s} (cF cB cV : String), Reachable s →
      Reachable (handleSaveSettings s cF cB cV).1

/-! ## Helper lemmas -/

lemma toList_append (a b : String) : (a ++ b).toList = a.toList ++ b.toList := rfl

lemma toList_colon : (":" : String).toList = [':'] := rfl

set_option maxRecDepth 4000 in
lemma padTwo_props : ∀ n, n < 100 →
    (((if n < 10 then "0" else "") ++ toString n).toList ≠ [] ∧
     (((if n < 10 then "0" else "") ++ toString n).toList.all Char.isDigit) = true ∧
     digitsToNat (((if n < 10 then "0" else "") ++ toString n).toList) = n) := by
  decide

lemma splitOn_colon (a b : List Char)
    (ha : a.all Char.isDigit = true) (hb : b.all Char.isDigit = true) :
    (a ++ ':' :: b).splitOn ':' = [a, b] := by
  have hnota : ∀ x ∈ a, ¬(x == ':') = true := by
    intro x hx hc
    have := List.all_eq_true.mp ha x hx
    simp at hc
    subst hc
    simp [Char.isDigit] at this
  have hnotb : ∀ x ∈ b, ¬(x == ':') = true := by
    intro x hx hc
    have := List.all_eq_true.mp hb x hx
    simp at hc
    subst hc
    simp [Char.isDigit] at this
  show (a ++ ':' :: b).splitOnP (fun x => x == ':') = [a, b]
  rw [List.splitOnP_first (fun x => x == ':') a hnota ':' (by simp) b,
    List.splitOnP_eq_single (fun x => x == ':') b hnotb]

/-- Well-formedness preserved by every command: both configured durations
are positive and timeLeft is non-negative. -/
def StateInv (s : TimerState) : Prop :=
  0 < s.focusDuration ∧ 0 < s.breakDuration ∧ 0 ≤ s.timeLeft

lemma tick_inv (s : TimerState) (h : StateInv s) : StateInv (tick s).1 := by
  obtain ⟨h1, h2, h3⟩ := h
  unfold StateInv tick expire
  split_ifs <;> dsimp only <;> omega

lemma toggle_inv (s : TimerState) (h : StateInv s) : StateInv (handleStartPause s) := by
  obtain ⟨h1, h2, h3⟩ := h
  unfold StateInv handleStartPause
  split_ifs <;> dsimp only <;> omega

lemma reset_inv (s : TimerState) (h : StateInv s) : StateInv (handleReset s) := by
  obtain ⟨h1, h2, h3⟩ := h
  unfold StateInv handleReset
  dsimp only
  omega

lemma skip_inv (s : TimerState) (h : StateInv s) : StateInv (handleSkip s).1 := by
  obtain ⟨h1, h2, h3⟩ := h
  unfold StateInv handleSkip
  split_ifs <;> dsimp only <;> omega

lemma save_inv (s : TimerState) (cF cB cV : String) (h : StateInv s) :
    StateInv (handleSaveSettings s cF cB cV).1 := by
  obtain ⟨h1, h2, h3⟩ := h
  unfold StateInv handleSaveSettings
  split
  · split
    · dsimp only; omega
    · split
      · split_ifs <;> dsimp only <;> omega
      · dsimp only; omega
  · dsimp only; omega

theorem reachable_inv (s : TimerState) (h : Reachable s) : StateInv s := by
  induction h with
  | init => exact ⟨by decide, by decide, by decide⟩
  | stepTick h ih => exact tick_inv _ ih
  | stepToggle h ih => exact toggle_inv _ ih
  | stepReset h ih => exact reset_inv _ ih
  | stepSkip h ih => exact skip_inv _ ih
  | stepSave cF cB cV h ih => exact save_inv _ cF cB cV ih

/-- C1: a tick from a running Focus state with one second left fires the
alarm, moves to Break, reseeds timeLeft to breakDuration * 60, and credits
the full focus duration to totalFocusedSeconds. -/
theorem tick_focus_expiry (s : TimerState)
    (hrun : s.isActive = true) (hph : s.currentPhase = Phase.focus)
    (ht : s.timeLeft = 1) :
    (tick s).2 = true ∧
    (tick s).1.currentPhase = Phase.breakP ∧
    (tick s).1.timeLeft = s.breakDuration * 60 ∧
    (tick s).1.totalFocusedSeconds = s.totalFocusedSeconds + s.focusDuration * 60 := by
  unfold tick expire
  rw [if_pos ⟨hrun, by omega⟩, if_pos (by dsimp only; exact ⟨hrun, by omega⟩),
    if_pos (by dsimp only; exact hph)]
  exact ⟨rfl, rfl, rfl, rfl⟩

theorem tick_focus_expiry_witness :
    (tick { initState with isActive := true, timeLeft := 1 }).2 = true ∧
    (tick { initState with isActive := true, timeLeft := 1 }).1.currentPhase = Phase.breakP ∧
    (tick { initState with isActive := true, timeLeft := 1 }).1.timeLeft
      = ({ initState with isActive := true, timeLeft := 1 } : TimerState).breakDuration * 60 ∧
    (tick { initState with isActive := true, timeLeft := 1 }).1.totalFocusedSeconds
      = ({ initState with isActive := true, timeLeft := 1 } : TimerState).totalFocusedSeconds
        + ({ initState with isActive := true, timeLeft := 1 } : TimerState).focusDuration * 60 :=
  tick_focus_expiry { initState with isActive := true, timeLeft := 1 } rfl rfl rfl

/-- C2: skip from any Focus state credits exactly the elapsed portion
focusDuration * 60 - timeLeft, moves to Break with the full break duration,
and forces isActive true. -/
theorem handleSkip_focus (s : TimerState) (hph : s.currentPhase = Phase.focus) :
    (handleSkip s).1.totalFocusedSeconds
      = s.totalFocusedSeconds + (s.focusDuration * 60 - s.timeLeft) ∧
    (handleSkip s).1.currentPhase = Phase.breakP ∧
    (handleSkip s).1.timeLeft = s.breakDuration * 60 ∧
    (handleSkip s).1.isActive = true := by
  unfold handleSkip
  rw [if_pos hph]
  exact ⟨rfl, rfl, rfl, rfl⟩

theorem handleSkip_focus_witness :
    (handleSkip { initState with timeLeft := 25 * 60 }).1.totalFocusedSeconds
      = ({ initState with timeLeft := 25 * 60 } : TimerState).totalFocusedSeconds
        + (({ initState with timeLeft := 25 * 60 } : TimerState).focusDuration * 60
           - ({ initState with timeLeft := 25 * 60 } : TimerState).timeLeft) ∧
    (handleSkip { initState with timeLeft := 25 * 60 }).1.currentPhase = Phase.breakP ∧
    (handleSkip { initState with timeLeft := 25 * 60 }).1.timeLeft
      = ({ initState with timeLeft := 25 * 60 } : TimerState).breakDuration * 60 ∧
    (handleSkip { initState with timeLeft := 25 * 60 }).1.isActive = true :=
  handleSkip_focus { initState with timeLeft := 25 * 60 } rfl

/-- C10: skip from any Break state leaves totalFocusedSeconds unchanged,
moves to Focus with the full focus duration, and forces isActive true. -/
theorem handleSkip_break (s : TimerState) (hph : s.currentPhase = Phase.breakP) :
    (handleSkip s).1.totalFocusedSeconds = s.totalFocusedSeconds ∧
    (handleSkip s).1.currentPhase = Phase.focus ∧
    (handleSkip s).1.timeLeft = s.focusDuration * 60 ∧
    (handleSkip s).1.isActive = true := by
  unfold handleSkip
  rw [if_neg (by rw [hph]; intro hc; cases hc)]
  exact ⟨rfl, rfl, rfl, rfl⟩

theorem handleSkip_break_witness :
    (handleSkip { initState with currentPhase := Phase.breakP }).1.totalFocusedSeconds
      = ({ initState with currentPhase := Phase.breakP } : TimerState).totalFocusedSeconds ∧
    (handleSkip { initState with currentPhase := Phase.breakP }).1.currentPhase = Phase.focus ∧
    (handleSkip { initState with currentPhase := Phase.breakP }).1.timeLeft
      = ({ initState with currentPhase := Phase.breakP } : TimerState).focusDuration * 60 ∧
    (handleSkip { initState with currentPhase := Phase.breakP }).1.isActive = true :=
  handleSkip_break { initState with currentPhase := Phase.breakP } rfl

/-- C7: reset from any state with positive configured durations stops the
timer, forces Focus, reseeds timeLeft to focusMinutes * 60, and leaves
totalFocusedSeconds unchanged. -/
theorem handleReset_spec (s : TimerState) (f b : Int)
    (hf : s.focusDuration = f) (hb : s.breakDuration = b)
    (hfpos : 0 < f) (hbpos : 0 < b) :
    (handleReset s).isActive = false ∧
    (handleReset s).currentPhase = Phase.focus ∧
    (handleReset s).timeLeft = f * 60 ∧
    (handleReset s).totalFocusedSeconds = s.totalFocusedSeconds := by
  unfold handleReset
  exact ⟨rfl, rfl, by dsimp only; rw [hf], rfl⟩

theorem handleReset_spec_witness :
    (handleReset initState).isActive = false ∧
    (handleReset initState).currentPhase = Phase.focus ∧
    (handleReset initState).timeLeft = 30 * 60 ∧
    (handleReset initState).totalFocusedSeconds = initState.totalFocusedSeconds :=
  handleReset_spec initState 30 15 rfl rfl (by norm_num) (by norm_num)

/-- C8: toggling from a paused state with timeLeft 0 starts the timer and
reseeds timeLeft from the current phase's configured duration; toggling from
running to paused leaves timeLeft untouched. -/
theorem handleStartPause_spec (s : TimerState) :
    ((s.isActive = false ∧ s.timeLeft = 0) →
      ((handleStartPause s).isActive = true ∧
       (handleStartPause s).timeLeft =
         (if s.currentPhase = Phase.focus then s.focusDuration * 60
          else s.breakDuration * 60))) ∧
    (s.isActive = true →
      ((handleStartPause s).isActive = false ∧
       (handleStartPause s).timeLeft = s.timeLeft)) := by
  constructor
  · intro hcond
    unfold handleStartPause
    rw [if_pos hcond]
    exact ⟨by dsimp only; rw [hcond.1]; rfl, rfl⟩
  · intro hrun
    unfold handleStartPause
    rw [if_neg (by rw [hrun]; intro hc; cases hc.1)]
    exact ⟨by dsimp only; rw [hrun]; rfl, rfl⟩

theorem handleStartPause_spec_witness :
    (handleStartPause { initState with timeLeft := 0 }).isActive = true ∧
    (handleStartPause { initState with timeLeft := 0 }).timeLeft =
      (if ({ initState with timeLeft := 0 } : TimerState).currentPhase = Phase.focus
       then ({ initState with timeLeft := 0 } : TimerState).focusDuration * 60
       else ({ initState with timeLeft := 0 } : TimerState).breakDuration * 60) :=
  (handleStartPause_spec { initState with timeLeft := 0 }).1 ⟨rfl, rfl⟩

/-- A draft duration string is acceptable when it parses and is positive. -/
def durOK : Option Int → Bool
  | some n => decide (0 < n)
  | none => false

/-- A draft volume string is acceptable when it parses into [0, 100]. -/
def volOK : Option Int → Bool
  | some n => decide (0 ≤ n ∧ n ≤ 100)
  | none => false

/-- C3: if the focus or break draft fails to parse to a positive integer, or
the volume draft fails to parse into [0,100], save-settings returns the state
completely unchanged and reports a validation error. -/
theorem handleSaveSettings_invalid (s : TimerState) (cF cB cV : String)
    (hbad : durOK (parseIntJS cF) = false ∨ durOK (parseIntJS cB) = false ∨
            volOK (parseIntJS cV) = false) :
    (handleSaveSettings s cF cB cV).1 = s ∧
    (handleSaveSettings s cF cB cV).2 ≠ SaveResult.ok := by
  unfold handleSaveSettings
  cases hF : parseIntJS cF with
  | none => exact ⟨rfl, by intro hc; cases hc⟩
  | some f =>
    cases hB : parseIntJS cB with
    | none => exact ⟨rfl, by intro hc; cases hc⟩
    | some b =>
      rw [hF, hB] at hbad
      dsimp only
      by_cases hdur : f ≤ 0 ∨ b ≤ 0
      · rw [if_pos hdur]
        exact ⟨rfl, by intro hc; cases hc⟩
      · rw [if_neg hdur]
        have hfb : durOK (some f) = true ∧ durOK (some b) = true := by
          unfold durOK
          constructor <;> simp <;> omega
        cases hV : parseIntJS cV with
        | none => exact ⟨rfl, by intro hc; cases hc⟩
        | some v =>
          rw [hV] at hbad
          dsimp only
          have hvbad : volOK (some v) = false := by
            rcases hbad with h | h | h
            · rw [hfb.1] at h; cases h
            · rw [hfb.2] at h; cases h
            · exact h
          have : v < 0 ∨ 100 < v := by
            unfold volOK at hvbad
            simp at hvbad
            omega
          rw [if_pos this]
          exact ⟨rfl, by intro hc; cases hc⟩

theorem handleSaveSettings_invalid_witness :
    (handleSaveSettings initState "0" "15" "50").1 = initState ∧
    (handleSaveSettings initState "0" "15" "50").2 ≠ SaveResult.ok :=
  handleSaveSettings_invalid initState "0" "15" "50" (Or.inl (by decide))

/-- C4: if all three drafts validate, save-settings commits them and reports
success; when paused it reseeds timeLeft from the new duration of the
displayed phase, and when running it leaves timeLeft unchanged. -/
theorem handleSaveSettings_valid (s : TimerState) (cF cB cV : String)
    (f b v : Int)
    (hF : parseIntJS cF = some f) (hf : 0 < f)
    (hB : parseIntJS cB = some b) (hb : 0 < b)
    (hV : parseIntJS cV = some v) (hv0 : 0 ≤ v) (hv1 : v ≤ 100) :
    (handleSaveSettings s cF cB cV).2 = SaveResult.ok ∧
    (handleSaveSettings s cF cB cV).1.focusDuration = f ∧
    (handleSaveSettings s cF cB cV).1.breakDuration = b ∧
    (handleSaveSettings s cF cB cV).1.alarmVolume = v ∧
    (s.isActive = false →
      (handleSaveSettings s cF cB cV).1.timeLeft =
        (if s.currentPhase = Phase.focus then f * 60 else b * 60)) ∧
    (s.isActive = true →
      (handleSaveSettings s cF cB cV).1.timeLeft = s.timeLeft) := by
  unfold handleSaveSettings
  rw [hF, hB, hV]
  dsimp only
  rw [if_neg (by omega), if_neg (by omega)]
  by_cases hA : s.isActive = false
  · rw [if_pos hA]
    by_cases hph : s.currentPhase = Phase.focus
    · rw [if_pos hph, if_pos hph]
      exact ⟨rfl, rfl, rfl, rfl, fun _ => rfl,
        fun hrun => absurd hrun (by rw [hA]; intro hc; cases hc)⟩
    · rw [if_neg hph, if_neg hph]
      exact ⟨rfl, rfl, rfl, rfl, fun _ => rfl,
        fun hrun => absurd hrun (by rw [hA]; intro hc; cases hc)⟩
  · rw [if_neg hA]
    exact ⟨rfl, rfl, rfl, rfl, fun hp => absurd hp hA, fun _ => rfl⟩

theorem handleSaveSettings_valid_witness :
    (handleSaveSettings initState "25" "5" "50").2 = SaveResult.ok ∧
    (handleSaveSettings initState "25" "5" "50").1.focusDuration = 25 ∧
    (handleSaveSettings initState "25" "5" "50").1.breakDuration = 5 ∧
    (handleSaveSettings initState "25" "5" "50").1.alarmVolume = 50 ∧
    (initState.isActive = false →
      (handleSaveSettings initState "25" "5" "50").1.timeLeft =
        (if initState.currentPhase = Phase.focus then 25 * 60 else 5 * 60)) ∧
    (initState.isActive = true →
      (handleSaveSettings initState "25" "5" "50").1.timeLeft = initState.timeLeft) :=
  handleSaveSettings_valid initState "25" "5" "50" 25 5 50
    (by decide) (by norm_num) (by decide) (by norm_num) (by decide)
    (by norm_num) (by norm_num)

/-- The state reached from the initial state by: toggle to running, then save
settings with focus shrunk to 1 minute while the countdown is in flight. -/
def shrunkState : TimerState :=
  (handleSaveSettings (handleStartPause initState) "1" "15" "50").1

/-- C5: evaluation of the code on a concrete reachable command sequence where
totalFocusedSeconds strictly decreases: after shrinking the focus duration to
1 minute while running with 1800 seconds left in Focus, skip credits
1 * 60 - 1800 = -1740 seconds. -/
theorem skip_after_shrink_decreases_total :
    Reachable shrunkState ∧
    (handleSkip shrunkState).1.totalFocusedSeconds < shrunkState.totalFocusedSeconds := by
  constructor
  · exact Reachable.stepSave "1" "15" "50" (Reachable.stepToggle Reachable.init)
  · decide

/-- In a tick, the phase changes exactly when the timer is running and the
decrement reaches zero, i.e. timeLeft was 1. -/
lemma tick_phase_change (s : TimerState) :
    (tick s).1.currentPhase ≠ s.currentPhase ↔ (s.isActive = true ∧ s.timeLeft = 1) := by
  unfold tick expire
  by_cases hA : s.isActive = true
  · by_cases ht : (0:Int) < s.timeLeft
    · rw [if_pos ⟨hA, ht⟩]
      by_cases h0 : s.timeLeft = 1
      · rw [if_pos (by dsimp only; exact ⟨hA, by omega⟩)]
        by_cases hph : s.currentPhase = Phase.focus
        · rw [if_pos (by dsimp only; exact hph)]
          dsimp only
          simp [hph, hA, h0]
        · rw [if_neg (by dsimp only; exact hph)]
          dsimp only
          simp [hA, h0]
          exact fun hc => hph hc.symm
      · rw [if_neg (by dsimp only; intro hc; exact h0 (by omega))]
        dsimp only
        simp [h0]
    · rw [if_neg (by intro hc; exact ht hc.2)]
      dsimp only
      constructor
      · intro hne; exact absurd rfl hne
      · rintro ⟨-, h1⟩; exact absurd (by omega : (0:Int) < s.timeLeft) ht
  · rw [if_neg (by intro hc; exact hA hc.1)]
    dsimp only
    constructor
    · intro hne; exact absurd rfl hne
    · rintro ⟨hA2, -⟩; exact absurd hA2 hA

/-- C6 (amended): in every reachable state timeLeft is non-negative — it is
never negative — and a tick changes phase exactly when the running countdown
reaches zero in that tick (timeLeft was 1); the claimed upper bound by the
current phase's configured duration does not hold (see the counterexample). -/
theorem secondsRemaining_nonneg (s : TimerState) (h : Reachable s) :
    0 ≤ s.timeLeft ∧
    ((tick s).1.currentPhase ≠ s.currentPhase ↔ (s.isActive = true ∧ s.timeLeft = 1)) :=
  ⟨(reachable_inv s h).2.2, tick_phase_change s⟩

theorem secondsRemaining_nonneg_witness :
    0 ≤ initState.timeLeft ∧
    ((tick initState).1.currentPhase ≠ initState.currentPhase ↔
      (initState.isActive = true ∧ initState.timeLeft = 1)) :=
  secondsRemaining_nonneg initState Reachable.init

/-- C6 as stated is false: shrunkState is reachable, sits in the Focus phase
with focusDuration 1, yet its timeLeft 1800 exceeds focusDuration * 60 = 60. -/
theorem secondsRemaining_bound_counterexample :
    Reachable shrunkState ∧
    shrunkState.currentPhase = Phase.focus ∧
    shrunkState.focusDuration * 60 < shrunkState.timeLeft := by
  constructor
  · exact Reachable.stepSave "1" "15" "50" (Reachable.stepToggle Reachable.init)
  · constructor
    · decide
    · decide

/-- C9: for 0 ≤ seconds < 6000, parsing the minutes and seconds fields of
formatTime's output back as minutes * 60 + seconds recovers the input. -/
theorem formatTime_roundTrip (s : Nat) (hs : s < 6000) :
    parseClock (formatTime s) = some s := by
  have hm : s / 60 < 100 := by omega
  have hsec : s % 60 < 100 := by omega
  obtain ⟨hne1, hdig1, hval1⟩ := padTwo_props (s / 60) hm
  obtain ⟨hne2, hdig2, hval2⟩ := padTwo_props (s % 60) hsec
  have hlist : (formatTime s).toList =
      ((if s / 60 < 10 then "0" else "") ++ toString (s / 60)).toList ++
        ':' :: ((if s % 60 < 10 then "0" else "") ++ toString (s % 60)).toList := by
    simp only [formatTime, toList_append, toList_colon, List.append_assoc,
      List.cons_append, List.nil_append]
  unfold parseClock
  rw [hlist, splitOn_colon _ _ hdig1 hdig2]
  simp only [List.isEmpty_iff, hne1, hne2, hdig1, hdig2]
  simp only [if_neg, not_true, or_self, or_false, false_or, if_false]
  rw [hval1, hval2]
  simp only [Option.some.injEq]
  omega

theorem formatTime_roundTrip_witness : parseClock (formatTime 1525) = some 1525 :=
  formatTime_roundTrip 1525 (by norm_num)
